import Mathlib

/-!
Shallow embedding of the slit-scan compositor in `anim_slitscan.py`
(class `Slitscan`, class `SlitscanObjects`).

Modelling conventions:
* Python floats are modelled as exact rationals (`ℚ`); Python ints as `ℤ`/`ℕ`.
* Python operations that can raise (`/` and `%` by zero) are modelled with
  `Option`: `none` means the corresponding call raises `ZeroDivisionError`.
* Cairo graphics side effects (surface creation, clipping, painting,
  transforms) are external to the repository; the embedding records the pure
  data the code computes and feeds to cairo (draw times for each repainted
  column, source-offset pairs for each composited destination column, the set
  of items painted by `draw_items`) and the evolution of the one piece of
  instance state the code mutates, `last_draw_time`.
* The unbounded `while` loop of `Slitscan.render` (lines 94-102) is embedded
  with explicit fuel; `advanceTo` runs it with fuel `steps`.  The theorem for
  claim C4 shows this fuel is never exhausted, which is exactly the
  termination bound the loop enjoys in the source.
-/

/-- Embeds the Python built-in `round` on an exact rational value:
round-half-to-even (banker's rounding), as used at line 28 of
`anim_slitscan.py`. -/
def pythonRound (q : ℚ) : ℤ :=
  let f := ⌊q⌋
  let frac := q - (f : ℚ)
  if frac < 1 / 2 then f
  else if 1 / 2 < frac then f + 1
  else if f % 2 = 0 then f else f + 1

/-- Embeds `Slitscan.time_to_offset` (lines 26-29):
`round((1.0 - at_time / self.duration) * self.steps - 1) % self.steps`.
`none` models the `ZeroDivisionError` raised when `duration = 0` (the
division) or `steps = 0` (the `%`).  For `steps > 0`, Python `%` on ints
agrees with `Int.emod`. -/
def time_to_offset? (duration : ℚ) (steps : ℕ) (at_time : ℚ) : Option ℤ :=
  if duration = 0 then none
  else if steps = 0 then none
  else some (pythonRound ((1 - at_time / duration) * (steps : ℚ) - 1) % (steps : ℤ))

/-- State of one `Slitscan` instance: the constructor parameters the
catch-up/compositing logic reads, plus the single mutable cursor
`last_draw_time`.  The cairo surface, pattern and context created in
`__init__` (lines 71-77) are external graphics resources. -/
structure Slitscan where
  duration : ℚ
  steps : ℕ
  extent : ℕ
  last_draw_time : Option ℚ
  deriving DecidableEq

/-- Embeds `Slitscan.__init__` (lines 66-79).  The constructor only stores
its parameters, allocates graphics resources (external), paints the
background (external), and sets `last_draw_time = None`; it performs no
validation of `extent`, `steps` or `duration`. -/
def Slitscan.init (extent steps : ℕ) (duration : ℚ) : Slitscan :=
  { duration := duration, steps := steps, extent := extent, last_draw_time := none }

/-- Embeds lines 89-91 of `Slitscan.render`: the value held by
`self.last_draw_time` when the catch-up loop starts.  On the first-ever call
(`last_draw_time == None`) the code assigns `- self.duration / self.steps`,
a constant that does not depend on the requested time. -/
def bootLast (sc : Slitscan) : ℚ :=
  match sc.last_draw_time with
  | none => - sc.duration / (sc.steps : ℚ)
  | some l => l

/-- Embeds lines 96-99 of `Slitscan.render`: `this_offset -= 1` followed by
`if this_offset < 0: this_offset += self.steps`. -/
def stepOffset (steps : ℕ) (this_offset : ℤ) : ℤ :=
  if this_offset - 1 < 0 then this_offset - 1 + (steps : ℤ) else this_offset - 1

/-- Embeds the catch-up `while` loop of `Slitscan.render` (lines 94-102)
with explicit fuel (`none` = the loop would still be running after `fuel`
iterations).  Each iteration increments `time_steps`, steps `this_offset`
backwards with wraparound, computes
`this_time = last + time_steps * duration / steps`, and invokes the draw
callback for that time (the callback itself is external; the returned list
records the times it is invoked at, in order).  `get_context(this_time)`
recomputes `time_to_offset(this_time)`, which cannot raise here because the
caller has already evaluated `time_to_offset?` successfully for the same
`duration` and `steps`. -/
def catchupLoop (steps : ℕ) (base_offset : ℤ) (duration last : ℚ) :
    ℕ → ℤ → ℕ → Option (List ℚ)
  | 0, this_offset, _ =>
    if this_offset = base_offset then some [] else none
  | fuel + 1, this_offset, time_steps =>
    if this_offset = base_offset then some []
    else
      let k := time_steps + 1
      let next := stepOffset steps this_offset
      let this_time := last + (k : ℚ) * duration / (steps : ℚ)
      match catchupLoop steps base_offset duration last fuel next k with
      | none => none
      | some rest => some (this_time :: rest)

/-- Embeds the buffer-advance part of `Slitscan.render` (lines 87-104): the
computation of `base_offset`, the `last_draw_time != at_time` guard, the
first-call initialisation, the catch-up loop, and the final assignment
`last_draw_time = at_time`.  Returns the list of times the draw callback is
invoked at, and the updated instance state; `none` models an uncaught
`ZeroDivisionError` (or, conservatively, fuel exhaustion, shown impossible
in `advanceTo_total`). -/
def advanceTo (sc : Slitscan) (at_time : ℚ) : Option (List ℚ × Slitscan) :=
  match time_to_offset? sc.duration sc.steps at_time with
  | none => none
  | some base_offset =>
    if sc.last_draw_time = some at_time then some ([], sc)
    else
      let last := bootLast sc
      match time_to_offset? sc.duration sc.steps last with
      | none => none
      | some this_offset =>
        match catchupLoop sc.steps base_offset sc.duration last sc.steps this_offset 0 with
        | none => none
        | some times => some (times, { sc with last_draw_time := some at_time })

/-- Python float division, `none` when the divisor is zero
(`ZeroDivisionError`). -/
def qdiv? (a b : ℚ) : Option ℚ :=
  if b = 0 then none else some (a / b)

/-- Python float `%`: `a % b = a - b * floor (a / b)`; `none` when the
divisor is zero (`ZeroDivisionError`). -/
def qmod? (a b : ℚ) : Option ℚ :=
  if b = 0 then none else some (a - b * (⌊a / b⌋ : ℚ))

/-- Embeds one iteration of the compositing loop of `Slitscan.render`
(lines 112-166) for destination column `i`: the extent interpolation and the
two reciprocal-interpolation source offsets `this_offset`, `this_offset2`
(lines 113-154).  Repeated pure subexpressions (`1 / from_extent`,
`1 / to_extent`) are evaluated once; the failure behaviour is unchanged
since a repeated division by the same divisor raises at its first
occurrence.  The rectangle fill through the pattern matrix (lines 155-166)
is an external graphics effect determined by the returned offset pair. -/
def columnOffset (steps : ℕ) (base_offset : ℤ) (span from_extent to_extent : ℚ)
    (i : ℕ) : Option (ℚ × ℚ) := do
  let dst_width := min (span - (i : ℚ)) 1
  let u ← qdiv? (i : ℚ) span
  let dst_extent := u * (to_extent - from_extent) + from_extent
  let u2 ← qdiv? ((i : ℚ) + dst_width) span
  let dst_extent2 := u2 * (to_extent - from_extent) + from_extent
  let rde ← qdiv? 1 dst_extent
  let rfe ← qdiv? 1 from_extent
  let rte ← qdiv? 1 to_extent
  let q1 ← qdiv? (rde - rfe) (rte - rfe)
  let o1 ← qmod? (q1 * (steps : ℚ) + (base_offset : ℚ) - 1) (steps : ℚ)
  let rde2 ← qdiv? 1 dst_extent2
  let q2 ← qdiv? (rde2 - rfe) (rte - rfe)
  let o2 ← qmod? (q2 * (steps : ℚ) + (base_offset : ℚ) - 1) (steps : ℚ)
  let o2w := if o2 < o1 then o2 + (steps : ℚ) else o2
  return (o1, o2w)

/-- Embeds the compositing stage of `Slitscan.render` (lines 105-168):
`for i in range(0, math.ceil(span))`, each iteration computing one source
offset pair.  `span` stands for `math.hypot(to_x - from_x, to_y - from_y)`,
taken as a parameter because a square root leaves ℚ; for a horizontal
trajectory it equals `|to_x - from_x|` exactly.  The rotation of the
destination context (lines 105-110) and the per-column fills are external
graphics effects.  `none` models a `ZeroDivisionError` in some iteration
(earlier iterations have already painted). -/
def composite (steps : ℕ) (base_offset : ℤ) (span from_extent to_extent : ℚ) :
    Option (List (ℚ × ℚ)) :=
  (List.range (Int.toNat ⌈span⌉)).mapM (columnOffset steps base_offset span from_extent to_extent)

/-- Embeds `Slitscan.render` (lines 81-169): `base_offset` is computed first
(line 87), then the buffer advance runs (lines 88-104), then the compositing
stage samples the buffer.  The outer `Option` is an exception at or before
the buffer advance; the inner `Option` is an exception during compositing,
raised after the buffer advance has already mutated the instance. -/
def Slitscan.render (sc : Slitscan) (at_time span from_extent to_extent : ℚ) :
    Option ((List ℚ × Slitscan) × Option (List (ℚ × ℚ))) :=
  match time_to_offset? sc.duration sc.steps at_time with
  | none => none
  | some base_offset =>
    match advanceTo sc at_time with
    | none => none
    | some adv => some (adv, composite sc.steps base_offset span from_extent to_extent)

/-- Embeds `SlitscanObjects.Item` (lines 179-193).  The cairo source surface
is external; only its pixel dimensions (read by `draw_items` for scaling)
are kept. -/
structure Item where
  surface_width : ℚ
  surface_height : ℚ
  width : ℚ
  height : ℚ
  x_offset : ℚ
  y_offset : ℚ
  deriving DecidableEq

/-- Embeds the visibility test of `SlitscanObjects.draw_items`
(lines 197-202): `item.x_offset >= t and item.x_offset <= t + duration or
item.x_offset + item.width >= t and item.x_offset + item.width <= t +
duration` (Python `and` binds tighter than `or`). -/
def itemVisible (duration t : ℚ) (it : Item) : Bool :=
  (it.x_offset ≥ t && it.x_offset ≤ t + duration) ||
    (it.x_offset + it.width ≥ t && it.x_offset + it.width ≤ t + duration)

/-- Embeds `SlitscanObjects.draw_items` (lines 195-215): each stored item
passing the visibility test is painted, in list order.  The translate /
scale / paint calls for a visible item are external graphics effects; the
returned list records exactly which items are painted. -/
def draw_items (items : List Item) (duration t : ℚ) : List Item :=
  items.filter (fun it => itemVisible duration t it)

/-!
Helper lemmas shared by the claim theorems.
-/

lemma time_to_offset?_eq {d : ℚ} {s : ℕ} (hd : d ≠ 0) (hs : s ≠ 0) (t : ℚ) :
    time_to_offset? d s t =
      some (pythonRound ((1 - t / d) * (s : ℚ) - 1) % (s : ℤ)) := by
  simp [time_to_offset?, hd, hs]

lemma time_to_offset?_bounds {d : ℚ} {s : ℕ} {t : ℚ} {o : ℤ}
    (h : time_to_offset? d s t = some o) :
    0 ≤ o ∧ o < (s : ℤ) ∧ 0 < s ∧ d ≠ 0 := by
  by_cases hd : d = 0
  · simp [time_to_offset?, hd] at h
  by_cases hs : s = 0
  · simp [time_to_offset?, hd, hs] at h
  rw [time_to_offset?_eq hd hs t] at h
  obtain rfl := Option.some.inj h
  have hsz : (s : ℤ) ≠ 0 := by exact_mod_cast hs
  refine ⟨Int.emod_nonneg _ hsz, Int.emod_lt_of_pos _ ?_, Nat.pos_of_ne_zero hs, hd⟩
  exact_mod_cast Nat.pos_of_ne_zero hs

/-- Number of backward wrap-around steps from offset `this` to offset `base`
in a cyclic buffer of `s` columns. -/
def distZ (s : ℕ) (base this : ℤ) : ℕ :=
  (if base ≤ this then this - base else this + (s : ℤ) - base).toNat

lemma stepOffset_spec {s : ℕ} {base this : ℤ} (h0 : 0 ≤ this) (h1 : this < (s : ℤ))
    (h2 : 0 ≤ base) (h3 : base < (s : ℤ)) (hne : this ≠ base) :
    0 ≤ stepOffset s this ∧ stepOffset s this < (s : ℤ) ∧
      distZ s base (stepOffset s this) + 1 = distZ s base this := by
  simp only [stepOffset, distZ]
  split_ifs <;> omega

lemma catchupLoop_length_le (s : ℕ) (b : ℤ) (dur last : ℚ) :
    ∀ fuel this k ts, catchupLoop s b dur last fuel this k = some ts →
      ts.length ≤ fuel := by
  intro fuel
  induction fuel with
  | zero =>
    intro this k ts h
    unfold catchupLoop at h
    split at h
    · obtain rfl := Option.some.inj h
      simp
    · exact absurd h (by simp)
  | succ f ih =>
    intro this k ts h
    unfold catchupLoop at h
    split at h
    · obtain rfl := Option.some.inj h
      simp
    · dsimp only at h
      cases hrec : catchupLoop s b dur last f (stepOffset s this) (k + 1) with
      | none => rw [hrec] at h; exact absurd h (by simp)
      | some rest =>
        rw [hrec] at h
        obtain rfl := Option.some.inj h
        simpa using Nat.succ_le_succ (ih _ _ _ hrec)

lemma catchupLoop_total (s : ℕ) (b : ℤ) (dur last : ℚ) :
    ∀ fuel this k, 0 ≤ this → this < (s : ℤ) → 0 ≤ b → b < (s : ℤ) →
      distZ s b this ≤ fuel →
      ∃ ts, catchupLoop s b dur last fuel this k = some ts ∧
        ts.length = distZ s b this := by
  intro fuel
  induction fuel with
  | zero =>
    intro this k h0 h1 h2 h3 hf
    have hthis : this = b := by
      simp only [distZ] at hf
      split at hf <;> omega
    subst hthis
    refine ⟨[], ?_, ?_⟩
    · unfold catchupLoop
      simp
    · simp [distZ]
  | succ f ih =>
    intro this k h0 h1 h2 h3 hf
    by_cases hb : this = b
    · subst hb
      refine ⟨[], ?_, ?_⟩
      · unfold catchupLoop
        simp
      · simp [distZ]
    · obtain ⟨hn0, hn1, hd⟩ := stepOffset_spec h0 h1 h2 h3 hb
      obtain ⟨ts, hts, hlen⟩ := ih (stepOffset s this) (k + 1) hn0 hn1 h2 h3 (by omega)
      refine ⟨(last + ((k + 1 : ℕ) : ℚ) * dur / (s : ℚ)) :: ts, ?_, by simp [hlen]; omega⟩
      unfold catchupLoop
      rw [if_neg hb]
      dsimp only
      rw [hts]

lemma advanceTo_inv {sc : Slitscan} {t : ℚ} {ts : List ℚ} {sc' : Slitscan}
    (h : advanceTo sc t = some (ts, sc')) :
    sc'.last_draw_time = some t ∧ sc'.duration = sc.duration ∧ sc'.steps = sc.steps ∧
      ts.length ≤ sc.steps ∧ ∃ b, time_to_offset? sc.duration sc.steps t = some b := by
  unfold advanceTo at h
  cases hb : time_to_offset? sc.duration sc.steps t with
  | none => rw [hb] at h; exact absurd h (by simp)
  | some base =>
    rw [hb] at h
    dsimp only at h
    by_cases hlast : sc.last_draw_time = some t
    · rw [if_pos hlast] at h
      injection h with h1
      injection h1 with hts hsc
      subst hts
      subst hsc
      exact ⟨hlast, rfl, rfl, by simp, ⟨base, rfl⟩⟩
    · rw [if_neg hlast] at h
      cases hthis : time_to_offset? sc.duration sc.steps (bootLast sc) with
      | none => rw [hthis] at h; exact absurd h (by simp)
      | some this_offset =>
        rw [hthis] at h
        dsimp only at h
        cases hloop : catchupLoop sc.steps base sc.duration (bootLast sc) sc.steps this_offset 0 with
        | none => rw [hloop] at h; exact absurd h (by simp)
        | some times =>
          rw [hloop] at h
          injection h with h1
          injection h1 with hts hsc
          subst hts
          subst hsc
          exact ⟨rfl, rfl, rfl, catchupLoop_length_le _ _ _ _ _ _ _ _ hloop, ⟨base, rfl⟩⟩

lemma advanceTo_total {sc : Slitscan} (hd : sc.duration ≠ 0) (hs : 0 < sc.steps)
    (t : ℚ) :
    ∃ ts sc', advanceTo sc t = some (ts, sc') ∧ ts.length ≤ sc.steps := by
  have hb := time_to_offset?_eq hd hs.ne' t
  obtain ⟨hb0, hb1, -, -⟩ := time_to_offset?_bounds hb
  unfold advanceTo
  rw [hb]
  dsimp only
  by_cases hlast : sc.last_draw_time = some t
  · rw [if_pos hlast]
    exact ⟨[], sc, rfl, by simp⟩
  · rw [if_neg hlast]
    have hthis := time_to_offset?_eq hd hs.ne' (bootLast sc)
    obtain ⟨ht0, ht1, -, -⟩ := time_to_offset?_bounds hthis
    rw [hthis]
    dsimp only
    set b := pythonRound ((1 - t / sc.duration) * (sc.steps : ℚ) - 1) % (sc.steps : ℤ) with hbdef
    set o := pythonRound ((1 - bootLast sc / sc.duration) * (sc.steps : ℚ) - 1) % (sc.steps : ℤ) with hodef
    have hdist : distZ sc.steps b o ≤ sc.steps := by
      simp only [distZ]
      split <;> omega
    obtain ⟨ts, hts, hlen⟩ :=
      catchupLoop_total sc.steps b sc.duration (bootLast sc) sc.steps o 0 ht0 ht1 hb0 hb1 hdist
    rw [hts]
    exact ⟨ts, _, rfl, by omega⟩

lemma columnOffset_eq_extents_none {s : ℕ} {b : ℤ} {span fe : ℚ}
    (hspan : span ≠ 0) (hfe : fe ≠ 0) :
    columnOffset s b span fe fe 0 = none := by
  simp [columnOffset, qdiv?, hspan, hfe]

lemma composite_eq_extents_none {s : ℕ} {b : ℤ} {span fe : ℚ}
    (hspan : 0 < span) (hfe : fe ≠ 0) :
    composite s b span fe fe = none := by
  have hceil : 0 < ⌈span⌉ := Int.ceil_pos.mpr hspan
  obtain ⟨m, hm⟩ : ∃ m, Int.toNat ⌈span⌉ = m + 1 := ⟨Int.toNat ⌈span⌉ - 1, by omega⟩
  unfold composite
  rw [hm, List.range_succ_eq_map, List.mapM_cons,
    columnOffset_eq_extents_none (ne_of_gt hspan) hfe]
  rfl


lemma render_eval {sc : Slitscan} {at_time : ℚ} {b : ℤ} {adv : List ℚ × Slitscan}
    (hb : time_to_offset? sc.duration sc.steps at_time = some b)
    (hadv : advanceTo sc at_time = some adv) (span fe te : ℚ) :
    Slitscan.render sc at_time span fe te = some (adv, composite sc.steps b span fe te) := by
  unfold Slitscan.render
  rw [hb]
  dsimp only
  rw [hadv]

/-!
Claim theorems.
-/

/-- C1, counterexample.  A concrete `Slitscan.render` call with
`from_extent == to_extent == 1` (non-zero) and a one-pixel horizontal
trajectory (`span = 1`): the buffer advance runs (one column drawn, state
updated), but the compositing stage raises `ZeroDivisionError` (inner
result `none`) instead of falling back to a uniform offset mapping, so the
claim that such a call performs no division by zero is false. -/
theorem equal_extents_div_by_zero_cex :
    Slitscan.render (Slitscan.init 10 8 1) 0 1 1 1 =
      some (([0], ⟨1, 8, 10, some 0⟩), none) := by
  rw [@render_eval (Slitscan.init 10 8 1) 0 7 ([0], ⟨1, 8, 10, some 0⟩)
    (by norm_num [time_to_offset?, pythonRound, Slitscan.init])
    (by norm_num [advanceTo, time_to_offset?, pythonRound, bootLast, Slitscan.init, catchupLoop,
      stepOffset] <;> simp) 1 1 1]
  norm_num [Slitscan.init, composite, columnOffset, qdiv?, qmod?, List.mapM, List.mapM.loop]

/-- C1, amended.  Whenever `from_extent = to_extent` (non-zero) and the
trajectory has positive length, the compositing stage of
`Slitscan.render` always evaluates the reciprocal-interpolation quotient
whose denominator `1/to_extent - 1/from_extent` is zero and raises
`ZeroDivisionError` (`none`); the code contains no uniform-mapping
fallback.  Only a zero-length trajectory (no destination columns) avoids
the division. -/
theorem equal_extents_composite_raises (s : ℕ) (b : ℤ) (span fe : ℚ)
    (hfe : fe ≠ 0) (hspan : 0 < span) :
    composite s b span fe fe = none :=
  composite_eq_extents_none hspan hfe

theorem equal_extents_composite_raises_witness :
    (2 : ℚ) ≠ 0 ∧ (0 : ℚ) < 3 ∧ composite 4 2 3 2 2 = none :=
  ⟨by norm_num, by norm_num,
    equal_extents_composite_raises 4 2 3 2 (by norm_num) (by norm_num)⟩

/-- C2, counterexample.  An item spanning times `[0, 10]` wholly contains
the column window `[3, 4]` (`t = 3`, `duration = 1`), so by the claim
(`t` lies within `[x_offset, x_offset + width]`) it should be painted; the
code tests the opposite containment (item edges within `[t, t + duration]`)
and does not paint it. -/
theorem item_visibility_spec_mismatch_cex :
    ¬ ((⟨1, 1, 10, 1, 0, 0⟩ : Item) ∈ draw_items [⟨1, 1, 10, 1, 0, 0⟩] 1 3 ↔
        (⟨1, 1, 10, 1, 0, 0⟩ : Item) ∈ ([⟨1, 1, 10, 1, 0, 0⟩] : List Item) ∧
          ((3 : ℚ) ≥ 0 ∧ (3 : ℚ) ≤ 0 + 10 ∨
            (3 : ℚ) + 1 ≥ 0 ∧ (3 : ℚ) + 1 ≤ 0 + 10)) := by
  norm_num [draw_items, itemVisible, List.filter]

/-- C2, amended.  In `SlitscanObjects.draw_items`, a stored item is painted
into the column at time `t` if and only if `item.x_offset` or
`item.x_offset + item.width` lies within the closed interval
`[t, t + duration]` (the containment is the reverse of the one claimed: the
item edges are tested against the column window, not the column edges
against the item span). -/
theorem draw_items_visibility_iff (items : List Item) (duration t : ℚ) (it : Item) :
    it ∈ draw_items items duration t ↔
      it ∈ items ∧
        (it.x_offset ≥ t ∧ it.x_offset ≤ t + duration ∨
          it.x_offset + it.width ≥ t ∧ it.x_offset + it.width ≤ t + duration) := by
  simp [draw_items, itemVisible, List.mem_filter]

/-- C3, counterexample.  With `duration = 1`, `steps = 8` and a first-ever
advance at `t = 1`, the claim says `last_draw_time` is initialised to
`t - duration/steps = 7/8`; the code assigns the constant
`-duration/steps = -1/8` regardless of `t`. -/
theorem first_advance_init_cex :
    ¬ (bootLast (Slitscan.init 10 8 1) = 1 - (1 : ℚ) / 8) := by
  norm_num [bootLast, Slitscan.init]

/-- C3, amended.  On the first-ever advance (`last_draw_time` absent) the
implementation initialises the catch-up cursor to the constant
`-duration/steps` (one column-interval before time zero), independent of
the requested time `t`; this agrees with the claimed `t - duration/steps`
exactly when `t = 0`. -/
theorem first_advance_init_value (d : ℚ) (s e : ℕ) (t : ℚ) :
    bootLast ⟨d, s, e, none⟩ = - d / (s : ℚ) ∧
      (bootLast ⟨d, s, e, none⟩ = t - d / (s : ℚ) ↔ t = 0) := by
  refine ⟨rfl, ?_⟩
  show - d / (s : ℚ) = t - d / (s : ℚ) ↔ t = 0
  rw [neg_div]
  constructor
  · intro h
    linarith
  · intro h
    subst h
    ring

/-- C4.  For every instance state (any `last_draw_time`, any `at_time`) with
non-zero `duration` and positive `steps`, a single buffer-advance pass
terminates — the `while` loop, run with fuel `steps`, completes without
exhausting it — and invokes the draw callback at most `steps` times, no
matter how far `at_time` is from the previous time. -/
theorem catchup_terminates_bounded (sc : Slitscan) (at_time : ℚ)
    (hd : sc.duration ≠ 0) (hs : 0 < sc.steps) :
    ∃ ts sc', advanceTo sc at_time = some (ts, sc') ∧ ts.length ≤ sc.steps :=
  advanceTo_total hd hs at_time

theorem catchup_terminates_bounded_witness :
    (Slitscan.init 10 8 1).duration ≠ 0 ∧ 0 < (Slitscan.init 10 8 1).steps ∧
      ∃ ts sc', advanceTo (Slitscan.init 10 8 1) 5 = some (ts, sc') ∧
        ts.length ≤ (Slitscan.init 10 8 1).steps :=
  ⟨by norm_num [Slitscan.init], by norm_num [Slitscan.init],
    catchup_terminates_bounded (Slitscan.init 10 8 1) 5 (by norm_num [Slitscan.init])
      (by norm_num [Slitscan.init])⟩

/-- C5.  With `steps = 8` and `duration = 1`, the first-ever advance at
time `0` invokes the draw callback exactly once, and a subsequent advance
at time `1/2` invokes it exactly 4 more times. -/
theorem concrete_scenario_draw_counts :
    (advanceTo (Slitscan.init 10 8 1) 0).map (fun r => r.1.length) = some 1 ∧
      ((advanceTo (Slitscan.init 10 8 1) 0).bind (fun r => advanceTo r.2 (1 / 2))).map
          (fun r => r.1.length) = some 4 := by
  have e1 : advanceTo (Slitscan.init 10 8 1) 0 = some ([0], ⟨1, 8, 10, some 0⟩) := by
    norm_num [advanceTo, time_to_offset?, pythonRound, bootLast, Slitscan.init, catchupLoop,
      stepOffset] <;> simp
  have hb : time_to_offset? 1 8 (1 / 2) = some 3 := by
    norm_num [time_to_offset?, pythonRound]
  have ht : time_to_offset? 1 8 0 = some 7 := by
    norm_num [time_to_offset?, pythonRound]
  have e2 : advanceTo (⟨1, 8, 10, some 0⟩ : Slitscan) (1 / 2) =
      some ([1 / 8, 1 / 4, 3 / 8, 1 / 2], ⟨1, 8, 10, some (1 / 2)⟩) := by
    norm_num [advanceTo, bootLast, hb, ht, catchupLoop, stepOffset] <;> simp
  rw [e1]
  refine ⟨rfl, ?_⟩
  show (advanceTo (⟨1, 8, 10, some 0⟩ : Slitscan) (1 / 2)).map (fun r => r.1.length) = some 4
  rw [e2]
  rfl

/-- C6.  Advancing twice in succession with the same time `t` produces zero
draw-callback invocations on the second advance, and leaves the state
unchanged. -/
theorem advance_idempotent {sc : Slitscan} {t : ℚ} {ts : List ℚ} {sc' : Slitscan}
    (h : advanceTo sc t = some (ts, sc')) :
    advanceTo sc' t = some ([], sc') := by
  obtain ⟨hlast, hdur, hsteps, -, b, hb⟩ := advanceTo_inv h
  unfold advanceTo
  rw [hdur, hsteps, hb]
  dsimp only
  rw [if_pos hlast]

theorem advance_idempotent_witness :
    advanceTo (Slitscan.init 10 8 1) (3 / 8) =
        some ([0, 1 / 8, 1 / 4, 3 / 8], ⟨1, 8, 10, some (3 / 8)⟩) ∧
      advanceTo (⟨1, 8, 10, some (3 / 8)⟩ : Slitscan) (3 / 8) =
        some ([], ⟨1, 8, 10, some (3 / 8)⟩) :=
  ⟨by norm_num [advanceTo, time_to_offset?, pythonRound, bootLast, Slitscan.init, catchupLoop,
      stepOffset] <;> simp,
    @advance_idempotent (Slitscan.init 10 8 1) (3 / 8) [0, 1 / 8, 1 / 4, 3 / 8]
      ⟨1, 8, 10, some (3 / 8)⟩
      (by norm_num [advanceTo, time_to_offset?, pythonRound, bootLast,
        Slitscan.init, catchupLoop, stepOffset] <;> simp)⟩

/-- C7, counterexample.  Constructing a `Slitscan` with zero `duration`
does not fail: the constructor stores the configuration and produces an
instance; the failure surfaces only on first use, when `time_to_offset`
raises `ZeroDivisionError`. -/
theorem constructor_no_validation_cex :
    Slitscan.init 10 8 0 = ⟨0, 8, 10, none⟩ ∧
      advanceTo (Slitscan.init 10 8 0) 1 = none :=
  ⟨rfl, by simp [advanceTo, time_to_offset?, Slitscan.init]⟩

/-- C7, amended.  `Slitscan.__init__` performs no validation: zero
`duration` (and likewise zero `steps`) is accepted and an instance is
produced with `last_draw_time = None`; such configurations fail only when
first used, `time_to_offset` raising `ZeroDivisionError` on every
subsequent advance. -/
theorem constructor_accepts_zero_duration (e s : ℕ) (t : ℚ) :
    Slitscan.init e s 0 = ⟨0, s, e, none⟩ ∧
      advanceTo (Slitscan.init e s 0) t = none ∧
      advanceTo (Slitscan.init e 0 1) t = none := by
  refine ⟨rfl, ?_, ?_⟩
  · simp [advanceTo, time_to_offset?, Slitscan.init]
  · simp [advanceTo, time_to_offset?, Slitscan.init]

/-- C8.  For every time `t`, `steps > 0` and non-zero `duration`,
`time_to_offset` succeeds, equals
`round((1 - t/duration) * steps - 1) mod steps` (with Python round-half-to-
even and Python non-negative `%`), and lies in `[0, steps)`. -/
theorem time_to_offset_formula_range (d : ℚ) (s : ℕ) (t : ℚ)
    (hd : d ≠ 0) (hs : 0 < s) :
    time_to_offset? d s t = some (pythonRound ((1 - t / d) * (s : ℚ) - 1) % (s : ℤ)) ∧
      0 ≤ pythonRound ((1 - t / d) * (s : ℚ) - 1) % (s : ℤ) ∧
      pythonRound ((1 - t / d) * (s : ℚ) - 1) % (s : ℤ) < (s : ℤ) := by
  refine ⟨time_to_offset?_eq hd hs.ne' t, Int.emod_nonneg _ ?_, Int.emod_lt_of_pos _ ?_⟩
  · exact_mod_cast hs.ne'
  · exact_mod_cast hs

theorem time_to_offset_formula_range_witness :
    (1 : ℚ) ≠ 0 ∧ 0 < 8 ∧
      (time_to_offset? 1 8 0 =
          some (pythonRound ((1 - (0 : ℚ) / 1) * ((8 : ℕ) : ℚ) - 1) % ((8 : ℕ) : ℤ)) ∧
        0 ≤ pythonRound ((1 - (0 : ℚ) / 1) * ((8 : ℕ) : ℚ) - 1) % ((8 : ℕ) : ℤ) ∧
        pythonRound ((1 - (0 : ℚ) / 1) * ((8 : ℕ) : ℚ) - 1) % ((8 : ℕ) : ℤ) < ((8 : ℕ) : ℤ)) :=
  ⟨by norm_num, by norm_num, time_to_offset_formula_range 1 8 0 (by norm_num) (by norm_num)⟩

/-- C9.  When the compositing stage fails (equal non-zero extents, positive
trajectory length, hence a `ZeroDivisionError` after the catch-up loop),
the catch-up side effects are not rolled back: the render call returns the
already-performed draw invocations and an instance whose `last_draw_time`
has already been set to `at_time`, with the compositing result `none` —
the failed render is not atomic with respect to instance state. -/
theorem render_failure_not_atomic {sc : Slitscan} {at_time span fe : ℚ}
    {ts : List ℚ} {sc' : Slitscan}
    (hadv : advanceTo sc at_time = some (ts, sc'))
    (hfe : fe ≠ 0) (hspan : 0 < span) :
    Slitscan.render sc at_time span fe fe = some ((ts, sc'), none) ∧
      sc'.last_draw_time = some at_time := by
  obtain ⟨hlast, -, -, -, b, hb⟩ := advanceTo_inv hadv
  refine ⟨?_, hlast⟩
  rw [render_eval hb hadv, composite_eq_extents_none hspan hfe]

theorem render_failure_not_atomic_witness :
    advanceTo (Slitscan.init 10 8 1) (1 / 4) =
        some ([0, 1 / 8, 1 / 4], ⟨1, 8, 10, some (1 / 4)⟩) ∧
      (3 : ℚ) ≠ 0 ∧ (0 : ℚ) < 2 ∧
      (Slitscan.render (Slitscan.init 10 8 1) (1 / 4) 2 3 3 =
          some (([0, 1 / 8, 1 / 4], ⟨1, 8, 10, some (1 / 4)⟩), none) ∧
        (⟨1, 8, 10, some (1 / 4)⟩ : Slitscan).last_draw_time = some (1 / 4)) :=
  ⟨by norm_num [advanceTo, time_to_offset?, pythonRound, bootLast, Slitscan.init, catchupLoop,
      stepOffset] <;> simp,
    by norm_num, by norm_num,
    @render_failure_not_atomic (Slitscan.init 10 8 1) (1 / 4) 2 3 [0, 1 / 8, 1 / 4]
      ⟨1, 8, 10, some (1 / 4)⟩
      (by norm_num [advanceTo, time_to_offset?, pythonRound, bootLast, Slitscan.init, catchupLoop,
        stepOffset] <;> simp)
      (by norm_num) (by norm_num)⟩

/-- C10.  Every `Slitscan.render` call that returns normally (no exception
in the buffer advance, none in compositing) leaves `last_draw_time` equal
to the `at_time` argument of that call; in particular it is never `None`
after a first successful render, and since this holds for every single
call it holds as an invariant across every sequence of render calls. -/
theorem render_sets_last_draw_time {sc : Slitscan} {at_time span fe te : ℚ}
    {ts : List ℚ} {sc' : Slitscan} {cols : List (ℚ × ℚ)}
    (h : Slitscan.render sc at_time span fe te = some ((ts, sc'), some cols)) :
    sc'.last_draw_time = some at_time := by
  unfold Slitscan.render at h
  cases hb : time_to_offset? sc.duration sc.steps at_time with
  | none => rw [hb] at h; exact absurd h (by simp)
  | some base =>
    rw [hb] at h
    dsimp only at h
    cases hadv : advanceTo sc at_time with
    | none => rw [hadv] at h; exact absurd h (by simp)
    | some adv =>
      rw [hadv] at h
      dsimp only at h
      injection h with h1
      have hadv2 : adv = (ts, sc') := congrArg Prod.fst h1
      rw [hadv2] at hadv
      exact (advanceTo_inv hadv).1

theorem render_sets_last_draw_time_witness :
    Slitscan.render (Slitscan.init 10 8 1) 0 1 1 2 =
        some (([0], ⟨1, 8, 10, some 0⟩), some [(6, 6)]) ∧
      (⟨1, 8, 10, some 0⟩ : Slitscan).last_draw_time = some 0 :=
  ⟨by rw [@render_eval (Slitscan.init 10 8 1) 0 7 ([0], ⟨1, 8, 10, some 0⟩)
        (by norm_num [time_to_offset?, pythonRound, Slitscan.init])
        (by norm_num [advanceTo, time_to_offset?, pythonRound, bootLast, Slitscan.init,
          catchupLoop, stepOffset] <;> simp) 1 1 2]
      norm_num [Slitscan.init, composite, columnOffset, qdiv?, qmod?, List.mapM, List.mapM.loop],
    @render_sets_last_draw_time (Slitscan.init 10 8 1) 0 1 1 2 [0] ⟨1, 8, 10, some 0⟩ [(6, 6)]
      (by rw [@render_eval (Slitscan.init 10 8 1) 0 7 ([0], ⟨1, 8, 10, some 0⟩)
            (by norm_num [time_to_offset?, pythonRound, Slitscan.init])
            (by norm_num [advanceTo, time_to_offset?, pythonRound, bootLast, Slitscan.init,
              catchupLoop, stepOffset] <;> simp) 1 1 2]
          norm_num [Slitscan.init, composite, columnOffset, qdiv?, qmod?, List.mapM,
            List.mapM.loop])⟩
